import Mathlib

/-!
Verification development for the svelte-fast-check diagnostic pipeline.

The TypeScript sources are shallowly embedded here.  JavaScript strings are
modelled as `List Char` (`Str`); JavaScript `indexOf`/`slice`/`substring`/
`split`/`trim`/regular-expression tests are implemented as executable Lean
functions with the same observable behaviour on the inputs they receive.
Filesystem reads, `JSON.parse` outcomes, the svelte compiler, svelte2tsx and
the decoded sourcemap (the `@jridgewell/trace-mapping` library) are external
collaborators of the pipeline; they are modelled as read-only oracles
(`FS`, `SourceMapData.query`), matching the external-interface contracts.
-/

/-- JavaScript strings are modelled as lists of UTF-16-ish characters. -/
abbrev Str := List Char

/-- The apostrophe character (U+0027), built by code point. -/
def apos : Char := Char.ofNat 39

/-- The backslash character. -/
def bsl : Char := Char.ofNat 92

/-- The left-brace character. -/
def lbrace : Char := Char.ofNat 123

/-- JavaScript `\s` on the ASCII range (space, tab, newline, CR, VT, FF). -/
def jsSpace (c : Char) : Bool :=
  c == ' ' || c == '\t' || c == '\n' || c == '\r' || c == Char.ofNat 11 || c == Char.ofNat 12

/-- JavaScript `\w`: ASCII letters, digits and underscore. -/
def isWordChar (c : Char) : Bool := c.isAlphanum || c == '_'

/-- Smallest index at which `pat` occurs in the given haystack (JS `indexOf`). -/
def findSubAux (pat : Str) : Str → Option Nat
  | [] => if pat.isPrefixOf ([] : Str) then some 0 else none
  | c :: t => if pat.isPrefixOf (c :: t) then some 0 else (findSubAux pat t).map (· + 1)

/-- JS `hay.indexOf(pat)`; `none` plays the role of `-1`. -/
def idxOf (hay pat : Str) : Option Nat := findSubAux pat hay

/-- JS `hay.indexOf(pat, start)`. -/
def idxOfFrom (hay pat : Str) (start : Nat) : Option Nat :=
  (findSubAux pat (hay.drop start)).map (· + start)

/-- JS `hay.includes(pat)`. -/
def containsSub (hay pat : Str) : Bool := (idxOf hay pat).isSome

/-- JS `hay.lastIndexOf(pat, upTo)`: the largest start index `≤ upTo`
(after clamping `upTo` into `[0, hay.length]`) at which `pat` occurs. -/
def lastIdxOfUpTo (hay pat : Str) (upTo : Int) : Option Nat :=
  let bound := min upTo.toNat hay.length
  (((List.range (hay.length + 1)).filter (fun i => pat.isPrefixOf (hay.drop i))).filter
    (fun i => decide (i ≤ bound))).getLast?

/-- JS `array[i]` for a possibly negative index. -/
def jsGet (xs : List α) (i : Int) : Option α :=
  if i < 0 then none else xs.get? i.toNat

/-- JS `s.split("\n")`. -/
def splitOnNl : Str → List Str
  | [] => [[]]
  | c :: rest =>
    if c == '\n' then [] :: splitOnNl rest
    else
      match splitOnNl rest with
      | [] => [[c]]
      | l :: ls => (c :: l) :: ls

/-- JS `s.trim()` restricted to the whitespace class above. -/
def jsTrimStr (s : Str) : Str :=
  ((s.dropWhile jsSpace).reverse.dropWhile jsSpace).reverse

/-- JS `s.substring(a, b)`: clamp both arguments into `[0, length]` and swap
them when out of order. -/
def jsSubstring (s : Str) (a b : Int) : Str :=
  let x := min a.toNat s.length
  let y := min b.toNat s.length
  (s.drop (min x y)).take (max x y - min x y)

/-- JS `s.endsWith(suffixText)`. -/
def endsWithStr (s suffixText : Str) : Bool := suffixText.isSuffixOf s

/-- Digits of a matched `\d+` group, read in base 10 (JS `parseInt(_, 10)`). -/
def natOfDigits (ds : Str) : Nat := ds.foldl (fun n c => n * 10 + (c.toNat - 48)) 0

/-- Severity of a diagnostic. -/
inductive Severity where
  | error
  | warning
deriving DecidableEq

/-- Provenance tag of a diagnostic. -/
inductive DiagSource where
  | ts
  | svelte
deriving DecidableEq

/-- A raw diagnostic, from `types.ts` (`Diagnostic`). Lines and columns are
1-based and kept as integers, matching JavaScript number arithmetic. -/
structure Diagnostic where
  file : Str
  line : Int
  column : Int
  code : Nat
  message : Str
  severity : Severity
  source : Option DiagSource := none
deriving DecidableEq

/-- A mapped diagnostic, from `types.ts` (`MappedDiagnostic`). -/
structure MappedDiagnostic extends Diagnostic where
  originalFile : Str
  originalLine : Int
  originalColumn : Int
  svelteCode : Option Str := none
deriving DecidableEq

/-- The decoded sourcemap, modelled by its `originalPositionFor` query:
1-based generated line and 0-based generated column in, original 1-based
line and 0-based column out, `none` when the position has no original
counterpart.  This models the external trace-mapping library (`TraceMap`). -/
structure SourceMapData where
  query : Int → Int → Option (Int × Int)

/-- The sourcemap stored for a failed conversion: `{ mappings: '', sources: [] }`;
an empty mapping resolves no position. -/
def emptySourceMap : SourceMapData := ⟨fun _ _ => none⟩

/-- Parse the numeric tail of a tsc output line after the file part's `(`:
`line,col): (error|warning) TS<code>: <message>` with the exact whitespace
and backtracking behaviour of the regex in `parser.ts`. -/
def parseAfterParen (cs : Str) : Option (Nat × Nat × Severity × Nat × Str) :=
  let ds1 := cs.takeWhile Char.isDigit
  if ds1 = [] then none else
  match cs.dropWhile Char.isDigit with
  | ',' :: r2 =>
    let ds2 := r2.takeWhile Char.isDigit
    if ds2 = [] then none else
    (match r2.dropWhile Char.isDigit with
     | ')' :: ':' :: r3 =>
       let r4 := r3.dropWhile jsSpace
       let sevRest : Option (Severity × Str) :=
         if ("error".data).isPrefixOf r4 then some (Severity.error, r4.drop 5)
         else if ("warning".data).isPrefixOf r4 then some (Severity.warning, r4.drop 7)
         else none
       match sevRest with
       | none => none
       | some (sev, r5) =>
         if r5.takeWhile jsSpace = [] then none else
         (match r5.dropWhile jsSpace with
          | 'T' :: 'S' :: r6 =>
            let ds3 := r6.takeWhile Char.isDigit
            if ds3 = [] then none else
            (match r6.dropWhile Char.isDigit with
             | ':' :: r7 =>
               let m := r7.dropWhile jsSpace
               let captured : Option Str :=
                 if m ≠ [] then (if m.contains '\r' then none else some m)
                 else match r7.getLast? with
                      | none => none
                      | some c => if c == '\r' then none else some [c]
               captured.map (fun msg => (natOfDigits ds1, natOfDigits ds2, sev, natOfDigits ds3, msg))
             | _ => none)
          | _ => none)
     | _ => none)
  | _ => none

/-- Scan a tsc output line for the lazily-matched file part `(.+?)` followed by
a parenthesised position: candidates are tried left to right, the file part
must be non-empty and free of `\r` (the regex `.` does not match `\r`). -/
def parseLineCandidates (fileAcc : Str) : Str → Option Diagnostic
  | [] => none
  | c :: rest =>
    if c == '(' then
      match
        (if fileAcc ≠ [] ∧ ¬ fileAcc.contains '\r' then
          (parseAfterParen rest).map (fun r =>
            { file := jsTrimStr fileAcc
              line := (r.1 : Int)
              column := (r.2.1 : Int)
              code := r.2.2.2.1
              message := jsTrimStr r.2.2.2.2
              severity := r.2.2.1 : Diagnostic })
         else none)
      with
      | some d => some d
      | none => parseLineCandidates (fileAcc ++ [c]) rest
    else parseLineCandidates (fileAcc ++ [c]) rest

/-- `parseTscOutput` from `parser.ts`: split the engine output on newlines and
keep every line matching the diagnostic pattern. -/
def parseTscOutput (output : Str) : List Diagnostic :=
  (splitOnNl output).filterMap (fun line => parseLineCandidates [] line)

/-- `countDiagnostics` from `parser.ts`. -/
def countDiagnostics (ds : List Diagnostic) : Nat × Nat :=
  ds.foldl (fun acc d =>
    match d.severity with
    | Severity.error => (acc.1 + 1, acc.2)
    | Severity.warning => (acc.1, acc.2 + 1)) (0, 0)

/-- The `/*Ωignore_startΩ*/` marker from `filter.ts`. -/
def ignoreStartMarker : Str := "/*Ωignore_startΩ*/".data

/-- The `/*Ωignore_endΩ*/` marker from `filter.ts`. -/
def ignoreEndMarker : Str := "/*Ωignore_endΩ*/".data

/-- The `__sveltets_2_store_get(` scaffolding pattern. -/
def storeGetPattern : Str := "__sveltets_2_store_get(".data

/-- TS error code for store misuse (`NO_OVERLOAD_MATCHES_CALL`). -/
def tsNoOverloadMatches : Nat := 2769

/-- Character offset of a 1-based (line, column) position in a text, as both
`isInGeneratedCode` and `isStoreVariableInStoreDeclaration` compute it:
the lengths (plus newline) of the preceding lines, plus `column - 1`. -/
def charOffsetOf (content : Str) (line col : Int) : Int :=
  let lines := splitOnNl content
  let k := min (line - 1).toNat lines.length
  ((((lines.take k).map (fun l => l.length + 1)).sum : Nat) : Int) + (col - 1)

/-- The marker-scanning loop of `isInGeneratedCode`, alternating between
searching for a start marker and an end marker.  The fuel is an upper bound
on the iteration count; each iteration advances the search position by at
least the marker length, so `content.length + 1` iterations always suffice. -/
def scanIgnoreAux (content : Str) (offset : Int) : Nat → Nat → Bool → Bool
  | 0, _, _ => false
  | fuel + 1, searchPos, inIgnore =>
    if inIgnore then
      match idxOfFrom content ignoreEndMarker searchPos with
      | none => true
      | some e =>
        if (e : Int) > offset then true
        else scanIgnoreAux content offset fuel (e + ignoreEndMarker.length) false
    else
      match idxOfFrom content ignoreStartMarker searchPos with
      | none => false
      | some s =>
        if (s : Int) > offset then false
        else scanIgnoreAux content offset fuel (s + ignoreStartMarker.length) true

/-- `isInGeneratedCode` from `filter.ts`: whether the diagnostic's character
offset falls inside an ignore region delimited by the sentinel markers. -/
def isInGeneratedCode (content : Str) (d : Diagnostic) : Bool :=
  scanIgnoreAux content (charOffsetOf content d.line d.column) (content.length + 1) 0 false

/-- `isStoreVariableInStoreDeclaration` from `filter.ts`: the characters
immediately preceding the diagnostic's offset are exactly
`__sveltets_2_store_get(`. -/
def isStoreVariableInStoreDeclaration (content : Str) (d : Diagnostic) : Bool :=
  let offset := charOffsetOf content d.line d.column
  let expectedStart := offset - (storeGetPattern.length : Int)
  if expectedStart < 0 then false
  else jsSubstring content expectedStart offset == storeGetPattern

/-- One candidate of the regex `'\$\$_\w+(\.\$on)?'`: the generated-variable
pattern of rule 4, anchored at the head of the suffix. -/
def genVarAt (cs : Str) : Bool :=
  match cs with
  | q :: '$' :: '$' :: '_' :: rest =>
    q == apos &&
    (let w := rest.takeWhile isWordChar
     !w.isEmpty &&
     (match rest.dropWhile isWordChar with
      | q2 :: _ => q2 == apos ||
        (match rest.dropWhile isWordChar with
         | '.' :: '$' :: 'o' :: 'n' :: q3 :: _ => q3 == apos
         | _ => false)
      | [] => false))
  | _ => false

/-- Unanchored test of a head-anchored matcher (JS `regex.test`). -/
def anySuffix (p : Str → Bool) : Str → Bool
  | [] => p []
  | c :: cs => p (c :: cs) || anySuffix p cs

/-- `generatedVarRegex.test(message)` from `filter.ts`. -/
def generatedVarTest (msg : Str) : Bool := anySuffix genVarAt msg

/-- One candidate of `/Variable '(\w+)' is used before being assigned/`,
returning the captured variable name. -/
def usedBeforeAssignedAt (cs : Str) : Option Str :=
  let lead := "Variable ".data ++ [apos]
  if lead.isPrefixOf cs then
    let rest := cs.drop lead.length
    let w := rest.takeWhile isWordChar
    if w = [] then none
    else if ([apos] ++ " is used before being assigned".data).isPrefixOf
              (rest.dropWhile isWordChar) then some w
    else none
  else none

/-- Leftmost match of a head-anchored capturing matcher (JS `string.match`). -/
def firstMatch (f : Str → Option α) : Str → Option α
  | [] => f []
  | c :: cs =>
    match f (c :: cs) with
    | some r => some r
    | none => firstMatch f cs

/-- Test of the dynamic regex `export\s+let\s+NAME\b` built in
`isExportLetProp`, anchored at the head of the suffix. -/
def exportLetAt (name : Str) (cs : Str) : Bool :=
  if ("export".data).isPrefixOf cs then
    let r1 := cs.drop 6
    !(r1.takeWhile jsSpace).isEmpty &&
    (let r2 := r1.dropWhile jsSpace
     if ("let".data).isPrefixOf r2 then
       let r3 := r2.drop 3
       !(r3.takeWhile jsSpace).isEmpty &&
       (let r4 := r3.dropWhile jsSpace
        name.isPrefixOf r4 &&
        (match (r4.drop name.length).head? with
         | none => true
         | some c => !isWordChar c))
     else false)
  else false

/-- `isExportLetProp` from `filter.ts`. -/
def isExportLetProp (content : Str) (d : Diagnostic) : Bool :=
  match firstMatch usedBeforeAssignedAt d.message with
  | none => false
  | some varName => anySuffix (exportLetAt varName) content

/-- `isInJsxAttribute` from `filter.ts`. -/
def isInJsxAttribute (content : Str) (d : Diagnostic) : Bool :=
  let lines := splitOnNl content
  if d.line ≤ 0 ∨ d.line > (lines.length : Int) then false
  else
    match jsGet lines (d.line - 1) with
    | none => false
    | some line => line.contains '<' && (line.contains '=' || line.contains lbrace)

/-- One candidate of `/\w+\s*=\s*\$\$_\w+/` from `isBindThisAssignment`. -/
def bindThisAt (cs : Str) : Bool :=
  let w := cs.takeWhile isWordChar
  !w.isEmpty &&
  (match (cs.dropWhile isWordChar).dropWhile jsSpace with
   | '=' :: r2 =>
     (match r2.dropWhile jsSpace with
      | '$' :: '$' :: '_' :: r3 => !(r3.takeWhile isWordChar).isEmpty
      | _ => false)
   | _ => false)

/-- `isBindThisAssignment` from `filter.ts`. -/
def isBindThisAssignment (content : Str) (d : Diagnostic) : Bool :=
  let lines := splitOnNl content
  if d.line ≤ 0 ∨ d.line > (lines.length : Int) then false
  else
    match jsGet lines (d.line - 1) with
    | none => false
    | some line => anySuffix bindThisAt line

/-- `isInEnsureComponentCall` from `filter.ts`. -/
def isInEnsureComponentCall (content : Str) (d : Diagnostic) : Bool :=
  let lines := splitOnNl content
  if d.line ≤ 0 ∨ d.line > (lines.length : Int) then false
  else
    match jsGet lines (d.line - 1) with
    | none => false
    | some line => containsSub line ("__sveltets_2_ensureComponent".data)

/-- Tail `\)?\s*=>` of the prop-callback regex. -/
def cbCloseTail (cs : Str) : Bool :=
  match cs with
  | ')' :: r => ("=>".data).isPrefixOf (r.dropWhile jsSpace)
  | _ => ("=>".data).isPrefixOf cs

/-- Iterations of `(,\s*\w+)*` followed by `\s*\)?\s*=>`: each further
parameter must follow its comma immediately (the regex allows spaces only
after the comma).  The fuel bounds the iteration count; every iteration
consumes at least the comma, so the input length always suffices. -/
def cbMoreParams : Nat → Str → Bool
  | 0, _ => false
  | fuel + 1, cs =>
    match cs with
    | ',' :: r =>
      let r2 := r.dropWhile jsSpace
      !(r2.takeWhile isWordChar).isEmpty && cbMoreParams fuel (r2.dropWhile isWordChar)
    | _ => cbCloseTail (cs.dropWhile jsSpace)

/-- `\(?\s*\w+\s*(,\s*\w+)*\s*\)?\s*=>` part of the prop-callback regex:
first parameter, optionally parenthesised, then further parameters. -/
def cbParams (cs : Str) : Bool :=
  let cs1 := match cs with
             | '(' :: r => r.dropWhile jsSpace
             | _ => cs
  !(cs1.takeWhile isWordChar).isEmpty &&
  (let r := cs1.dropWhile isWordChar
   match r.dropWhile jsSpace with
   | ',' :: r1 =>
     let r2 := r1.dropWhile jsSpace
     !(r2.takeWhile isWordChar).isEmpty &&
     cbMoreParams (r2.dropWhile isWordChar).length (r2.dropWhile isWordChar)
   | _ => cbCloseTail (r.dropWhile jsSpace))

/-- One candidate of the callback-pattern regex
`/"\w+":\s*(async\s+)?\(?\s*\w+\s*(,\s*\w+)*\s*\)?\s*=>/`. -/
def propCallbackAt (cs : Str) : Bool :=
  match cs with
  | '"' :: r0 =>
    !(r0.takeWhile isWordChar).isEmpty &&
    (match r0.dropWhile isWordChar with
     | '"' :: ':' :: r1 =>
       let r2 := r1.dropWhile jsSpace
       (match r2 with
        | 'a' :: 's' :: 'y' :: 'n' :: 'c' :: r3 =>
          (!(r3.takeWhile jsSpace).isEmpty && cbParams (r3.dropWhile jsSpace)) || cbParams r2
        | _ => cbParams r2)
     | _ => false)
  | _ => false

/-- One candidate of `/\(\s*\[/` (destructuring start). -/
def parenBracketAt (cs : Str) : Bool :=
  match cs with
  | '(' :: r => (r.dropWhile jsSpace).head? == some '['
  | _ => false

/-- One candidate of `/\]\s*\)\s*=>/` (destructuring end before an arrow). -/
def bracketParenArrowAt (cs : Str) : Bool :=
  match cs with
  | ']' :: r =>
    (match r.dropWhile jsSpace with
     | ')' :: r2 => ("=>".data).isPrefixOf (r2.dropWhile jsSpace)
     | _ => false)
  | _ => false

/-- One candidate of `/\(\s*\w+\s*\)\s*=>/` (single-parameter arrow). -/
def singleParamArrowAt (cs : Str) : Bool :=
  match cs with
  | '(' :: r =>
    let r1 := r.dropWhile jsSpace
    !(r1.takeWhile isWordChar).isEmpty &&
    (match (r1.dropWhile isWordChar).dropWhile jsSpace with
     | ')' :: r2 => ("=>".data).isPrefixOf (r2.dropWhile jsSpace)
     | _ => false)
  | _ => false

/-- `isInComponentPropCallback` from `filter.ts`. -/
def isInComponentPropCallback (content : Str) (d : Diagnostic) : Bool :=
  let lines := splitOnNl content
  if d.line ≤ 0 ∨ d.line > (lines.length : Int) then false
  else
    match jsGet lines (d.line - 1) with
    | none => false
    | some line =>
      let ln := (d.line).toNat
      let startLine := ln - 10
      let contextLines := (List.intercalate ['\n'] ((lines.drop startLine).take (ln - startLine)))
      ((containsSub contextLines ("__sveltets_2_ensureComponent".data) ||
        containsSub contextLines ("new $$_".data)) &&
       (anySuffix propCallbackAt line ||
        (anySuffix parenBracketAt line && anySuffix bracketParenArrowAt line))) ||
      (containsSub line ("#snippet".data) || anySuffix singleParamArrowAt line)

/-- Asset extensions recognised by `isAssetImport`. -/
def assetExtensions : List Str :=
  [".avif".data, ".png".data, ".jpg".data, ".jpeg".data, ".gif".data,
   ".svg".data, ".webp".data, ".ico".data]

/-- `isAssetImport` from `filter.ts`: the message matches
`/Cannot find module '([^']*)'/` and the captured path ends with a known
asset extension. -/
def isAssetImport (message : Str) : Bool :=
  let lead := "Cannot find module ".data ++ [apos]
  match idxOf message lead with
  | none => false
  | some i =>
    let rest := (message.drop (i + lead.length))
    let modulePath := rest.takeWhile (fun c => !(c == apos))
    if (rest.drop modulePath.length).head? == some apos then
      assetExtensions.any (fun ext => endsWithStr modulePath ext)
    else false

/-- The keep-or-drop decision of `filterFalsePositives` for one diagnostic,
mirroring the rule order of `typecheck/filter.ts` (rules 1–11). -/
def keepDiagnostic (tsxContents : Str → Option Str) (d : Diagnostic) : Bool :=
  match tsxContents d.file with
  | none => true
  | some content =>
    if isInGeneratedCode content d then
      decide (d.code = tsNoOverloadMatches) && isStoreVariableInStoreDeclaration content d
    else if decide (d.code = 2454) && isExportLetProp content d then false
    else if decide (d.code = 7028) then false
    else if decide (d.code = 6387) && generatedVarTest d.message then false
    else if (decide (d.code = 2300) || decide (d.code = 1117)) && isInJsxAttribute content d then false
    else if decide (d.code = 17001) then false
    else if decide (d.code = 2741) && isBindThisAssignment content d then false
    else if decide (d.code = 2345) &&
            (containsSub d.message ("ConstructorOfATypedSvelteComponent".data) ||
             isInEnsureComponentCall content d) then false
    else if (decide (d.code = 7006) || decide (d.code = 7031)) &&
            endsWithStr d.file (".svelte.tsx".data) && isInComponentPropCallback content d then false
    else if decide (d.code = 2307) && isAssetImport d.message then false
    else if decide (d.code = 2614) && containsSub d.message ("*.svelte".data) then false
    else true

/-- `filterFalsePositives` from `typecheck/filter.ts`. -/
def filterFalsePositives (diagnostics : List Diagnostic) (tsxContents : Str → Option Str) :
    List Diagnostic :=
  diagnostics.filter (keepDiagnostic tsxContents)

/-- Model of node's `path.resolve(base, p)` for the already-normalized paths
this pipeline produces: an absolute `p` wins, otherwise it is joined to
`base` with a separator. -/
def jsResolve2 (base p : Str) : Str :=
  match p with
  | '/' :: _ => p
  | _ => base ++ '/' :: p

/-- Model of node's `path.relative(root, p)` for the paths this pipeline
produces: strip a leading `root ++ "/"` when present. -/
def jsRelative (root p : Str) : Str :=
  if (root ++ ['/']).isPrefixOf p then p.drop (root.length + 1) else p

/-- JS `replace(/\.tsx$/, '')`. -/
def stripTsxExt (p : Str) : Str :=
  if endsWithStr p (".tsx".data) then p.take (p.length - 4) else p

/-- `tsxPathToOriginal` from `typecheck/mapper.ts`. -/
def tsxPathToOriginal (rootDir tsxPath cacheDir : Str) : Str :=
  let cacheAbs := jsResolve2 (jsResolve2 rootDir cacheDir) ("tsx".data) ++ ['/']
  if cacheAbs.isPrefixOf tsxPath then stripTsxExt (tsxPath.drop cacheAbs.length)
  else
    let rel := cacheDir ++ "/tsx/".data
    if rel.isPrefixOf tsxPath then stripTsxExt (tsxPath.drop rel.length)
    else stripTsxExt tsxPath

/-- `filterNegativeLines` from `typecheck/mapper.ts`: keep only mapped
diagnostics with positive original line and column. -/
def filterNegativeLines (diagnostics : List MappedDiagnostic) : List MappedDiagnostic :=
  diagnostics.filter (fun d => decide (0 < d.originalLine) && decide (0 < d.originalColumn))

/-- The rewritten message prefix of the store-misuse rescue in
`mapDiagnostic`: the explanation naming the store, followed by a blank line;
the original message is appended after it. -/
def storeRescuePre (storeName : Str) : Str :=
  "Cannot use ".data ++ [apos] ++ storeName ++ [apos] ++ " as a store. ".data ++
  [apos] ++ storeName ++ [apos] ++
  " needs to be an object with a subscribe method on it.\n\n".data

/-- Result of `findStoreUsageLocation`. -/
structure StoreLoc where
  line : Int
  column : Int
  storeName : Str
deriving DecidableEq

/-- The forward scan of `findStoreUsageLocation` over the lines after the
error line: per line, handle multi-line-comment continuation (recording the
column offset past `*/`), strip a `//` tail, splice out one inline `/* ... */`
or open a multi-line comment, then look for the sigil-prefixed store name with
no trailing word character and query the sourcemap at the found index plus the
recorded offset. -/
def storeScanLines (tracer : SourceMapData) (target : Str) :
    List Str → Nat → Bool → Option (Int × Int)
  | [], _, _ => none
  | l :: rest, lineIdx, inML =>
    if l = [] then storeScanLines tracer target rest (lineIdx + 1) inML
    else
      let step1 : Option (Str × Nat) :=
        if inML then
          match idxOf l ("*/".data) with
          | none => none
          | some e => some (l.drop (e + 2), e + 2)
        else some (l, 0)
      match step1 with
      | none => storeScanLines tracer target rest (lineIdx + 1) true
      | some (s0, colOff) =>
        let s1 := match idxOf s0 ("//".data) with
                  | some i => s0.take i
                  | none => s0
        let spliced : Str × Bool :=
          match idxOf s1 ("/*".data) with
          | some ms =>
            (match idxOfFrom s1 ("*/".data) ms with
             | none => (s1.take ms, true)
             | some me => (s1.take ms ++ s1.drop (me + 2), false))
          | none => (s1, false)
        match idxOf spliced.1 target with
        | none => storeScanLines tracer target rest (lineIdx + 1) spliced.2
        | some si =>
          match (spliced.1).get? (si + target.length) with
          | some c =>
            if isWordChar c then storeScanLines tracer target rest (lineIdx + 1) spliced.2
            else
              match tracer.query ((lineIdx : Int) + 1) ((colOff : Int) + (si : Int)) with
              | some (ml, mc) => some (ml, mc + 1)
              | none => storeScanLines tracer target rest (lineIdx + 1) spliced.2
          | none =>
            match tracer.query ((lineIdx : Int) + 1) ((colOff : Int) + (si : Int)) with
            | some (ml, mc) => some (ml, mc + 1)
            | none => storeScanLines tracer target rest (lineIdx + 1) spliced.2

/-- `findStoreUsageLocation` from `typecheck/mapper.ts`: extract the wrapped
identifier from the error line's `__sveltets_2_store_get(` call, then scan
the following lines for the first mappable `$name` occurrence. -/
def findStoreUsageLocation (content : Str) (d : Diagnostic) (tracer : SourceMapData) :
    Option StoreLoc :=
  let lines := splitOnNl content
  match jsGet lines (d.line - 1) with
  | none => none
  | some errorLine =>
    if errorLine = [] then none
    else
      match lastIdxOfUpTo errorLine storeGetPattern d.column with
      | none => none
      | some storeGetIndex =>
        let afterPat := errorLine.drop (storeGetIndex + storeGetPattern.length)
        let nameRun := afterPat.takeWhile isWordChar
        if nameRun = [] then none
        else
          let target := '$' :: nameRun
          match storeScanLines tracer target (lines.drop d.line.toNat) d.line.toNat false with
          | some (ml, mc) => some ⟨ml, mc, nameRun⟩
          | none => none

/-- `mapDiagnostic` from `typecheck/mapper.ts`.  The sourcemap store is the
map built by `buildSourcemapMap`, keyed by absolute output path; `tsxContents`
is the generated-file content map.  A `TraceMap` construction failure is not
modelled (the decoded map is the query itself). -/
def mapDiagnostic (d : Diagnostic) (sourcemaps : Str → Option SourceMapData)
    (rootDir : Str) (tsxContents : Str → Option Str) (cacheDir : Str) :
    Option MappedDiagnostic :=
  if ¬ endsWithStr d.file (".svelte.tsx".data) then
    some { d with originalFile := d.file, originalLine := d.line, originalColumn := d.column }
  else
    let absolutePath := jsResolve2 rootDir d.file
    let originalFile := tsxPathToOriginal rootDir d.file cacheDir
    match sourcemaps absolutePath with
    | none =>
      some { d with originalFile := originalFile, originalLine := d.line,
                    originalColumn := d.column }
    | some tracer =>
      match tracer.query d.line (d.column - 1) with
      | some (ol, oc) =>
        some { d with originalFile := originalFile, originalLine := ol,
                      originalColumn := oc + 1 }
      | none =>
        if d.code = tsNoOverloadMatches then
          match tsxContents d.file with
          | some content =>
            match findStoreUsageLocation content d tracer with
            | some loc =>
              some { d with originalFile := originalFile, originalLine := loc.line,
                            originalColumn := loc.column,
                            message := storeRescuePre loc.storeName ++ d.message }
            | none => none
          | none => none
        else none

/-- `mapDiagnostics` from `typecheck/mapper.ts`: map each diagnostic, keeping
the successful results in order. -/
def mapDiagnostics (diagnostics : List Diagnostic) (sourcemaps : Str → Option SourceMapData)
    (rootDir : Str) (tsxContents : Str → Option Str) (cacheDir : Str) :
    List MappedDiagnostic :=
  diagnostics.filterMap (fun d => mapDiagnostic d sourcemaps rootDir tsxContents cacheDir)

/-- Relevant part of `FastCheckConfig` from `types.ts`. -/
structure FastCheckConfig where
  rootDir : Str
  cacheDir : Option Str := none

/-- `getCacheRoot` from `typecheck/convert.ts`: `config.cacheDir || '.fast-check'`. -/
def getCacheRoot (config : FastCheckConfig) : Str :=
  config.cacheDir.getD (".fast-check".data)

/-- A svelte compiler warning (`SvelteWarning` from `types.ts`), with the
fields this pipeline reads: code, message, filename, start line (1-based) and
start column (0-based). -/
structure SvelteWarning where
  code : Str
  message : Str
  filename : Str
  startLine : Int
  startColumn : Int
deriving DecidableEq

/-- A cached warnings record (`CachedWarnings` from `compiler/collect.ts`):
the stored source mtime and the stored warnings. -/
structure CachedWarnings where
  mtime : Int
  warnings : List SvelteWarning
deriving DecidableEq

/-- Per-run oracle for the filesystem and the external collaborators:
file existence and modification times, file contents, `JSON.parse` outcomes
for the two cache record kinds, the svelte compiler's warnings per source file
(compile errors already folded to `[]`, as in `getSvelteWarnings`), the
svelte2tsx transpile outcome per source file (`none` models a throw), the
generated-directory listing, and which `unlinkSync` calls throw. -/
structure FS where
  fsExists : Str → Bool
  mtime : Str → Int
  contentOf : Str → Str
  parseMapJson : Str → Option SourceMapData
  parseWarningsJson : Str → Option CachedWarnings
  compileWarnings : Str → List SvelteWarning
  transpile : Str → Option SourceMapData
  listTsx : Str → List Str
  unlinkFails : Str → Bool

/-- `getTsxPath` from `typecheck/convert.ts`:
`resolve(rootDir, cacheRoot, 'tsx', relative(rootDir, sourcePath) + '.tsx')`. -/
def getTsxPath (config : FastCheckConfig) (sourcePath : Str) : Str :=
  jsResolve2 (jsResolve2 (jsResolve2 config.rootDir (getCacheRoot config)) ("tsx".data))
    (jsRelative config.rootDir sourcePath ++ ".tsx".data)

/-- JS `replace(/[/\\]/g, '_')` used to flatten a relative path. -/
def flattenPath (p : Str) : Str :=
  p.map (fun c => if c == '/' || c == bsl then '_' else c)

/-- `getMapPath` from `typecheck/convert.ts`:
`resolve(rootDir, cacheRoot, 'maps', flattened + '.map.json')`. -/
def getMapPath (config : FastCheckConfig) (sourcePath : Str) : Str :=
  jsResolve2 (jsResolve2 (jsResolve2 config.rootDir (getCacheRoot config)) ("maps".data))
    (flattenPath (jsRelative config.rootDir sourcePath) ++ ".map.json".data)

/-- A `ConversionResult` from `types.ts`. -/
structure ConversionResult where
  sourcePath : Str
  outputPath : Str
  map : SourceMapData
  success : Bool
  error : Option Str := none

/-- One entry of the `skippedFiles` list built by `convertChangedFiles`. -/
structure SkipEntry where
  sourcePath : Str
  outputPath : Str
  mapPath : Str
deriving DecidableEq

/-- The skip condition of `convertChangedFiles`: the generated file and its
sourcemap both exist and the generated file's mtime is at least the source
file's mtime. -/
def shouldSkipFile (fs : FS) (sourcePath outputPath mapPath : Str) : Bool :=
  fs.fsExists outputPath && fs.fsExists mapPath &&
  decide (fs.mtime sourcePath ≤ fs.mtime outputPath)

/-- The classification loop of `convertChangedFiles`: for each discovered
source file, either record a skip entry or queue the source path for
conversion, preserving order. -/
def classifyFiles (fs : FS) (config : FastCheckConfig) : List Str → List SkipEntry × List Str
  | [] => ([], [])
  | file :: rest =>
    let sourcePath := jsResolve2 config.rootDir file
    let outputPath := getTsxPath config sourcePath
    let mapPath := getMapPath config sourcePath
    let (sk, tc) := classifyFiles fs config rest
    if shouldSkipFile fs sourcePath outputPath mapPath then
      (⟨sourcePath, outputPath, mapPath⟩ :: sk, tc)
    else (sk, sourcePath :: tc)

/-- The `validTsxPaths` set built by `convertChangedFiles`: every discovered
source file's output path, recorded before the skip decision. -/
def validTsxPathsOf (config : FastCheckConfig) (files : List Str) : List Str :=
  files.map (fun file => getTsxPath config (jsResolve2 config.rootDir file))

/-- `loadSourcemap` from `typecheck/convert.ts`: `none` when the file is
absent or its content does not parse. -/
def loadSourcemap (fs : FS) (mapPath : Str) : Option SourceMapData :=
  if fs.fsExists mapPath then fs.parseMapJson (fs.contentOf mapPath) else none

/-- The result built for a skipped file in `convertChangedFiles`:
`success` is whether the stored sourcemap loaded, and a failed load leaves
the empty sourcemap. -/
def skippedResult (fs : FS) (e : SkipEntry) : ConversionResult :=
  match loadSourcemap fs e.mapPath with
  | some m => ⟨e.sourcePath, e.outputPath, m, true, none⟩
  | none => ⟨e.sourcePath, e.outputPath, emptySourceMap, false, none⟩

/-- `convertSvelteFileAsync` from `typecheck/convert.ts`, with the transpiler
as an oracle: a throw yields a failed result with the empty sourcemap. -/
def convertOne (fs : FS) (config : FastCheckConfig) (sourcePath : Str) : ConversionResult :=
  match fs.transpile sourcePath with
  | some m => ⟨sourcePath, getTsxPath config sourcePath, m, true, none⟩
  | none => ⟨sourcePath, getTsxPath config sourcePath, emptySourceMap, false,
             some ("conversion error".data)⟩

/-- The result list of `convertChangedFiles`: loaded results for skipped
files followed by fresh conversions for the rest. -/
def convertChangedFilesModel (fs : FS) (config : FastCheckConfig) (files : List Str) :
    List ConversionResult :=
  let cls := classifyFiles fs config files
  cls.1.map (skippedResult fs) ++ cls.2.map (convertOne fs config)

/-- Outcome of `cleanOrphanTsxFiles`: which generated files and sourcemaps
were actually deleted, and the reported deletion count. -/
structure CleanResult where
  deletedTsx : List Str
  deletedMaps : List Str
  count : Nat
deriving DecidableEq

/-- One iteration of the deletion loop in `cleanOrphanTsxFiles`: skip files
in the valid set; a throwing `unlinkSync` on the generated file is swallowed
before anything is deleted; after a successful deletion, the sourcemap at the
flattened name is deleted when present, and a throw there is swallowed after
the generated file is already gone. -/
def cleanOrphanStep (fs : FS) (config : FastCheckConfig) (valid : List Str) (tsxDir : Str)
    (acc : CleanResult) (file : Str) : CleanResult :=
  let tsxPath := jsResolve2 tsxDir file
  if decide (tsxPath ∈ valid) then acc
  else if fs.unlinkFails tsxPath then acc
  else
    let mapPath :=
      jsResolve2 (jsResolve2 (jsResolve2 config.rootDir (getCacheRoot config)) ("maps".data))
        (flattenPath (stripTsxExt file) ++ ".map.json".data)
    if fs.fsExists mapPath then
      if fs.unlinkFails mapPath then { acc with deletedTsx := acc.deletedTsx ++ [tsxPath] }
      else ⟨acc.deletedTsx ++ [tsxPath], acc.deletedMaps ++ [mapPath], acc.count + 1⟩
    else ⟨acc.deletedTsx ++ [tsxPath], acc.deletedMaps, acc.count + 1⟩

/-- `cleanOrphanTsxFiles` from `typecheck/convert.ts`. -/
def cleanOrphanTsxFiles (fs : FS) (config : FastCheckConfig) (valid : List Str) : CleanResult :=
  let tsxDir := jsResolve2 (jsResolve2 config.rootDir (getCacheRoot config)) ("tsx".data)
  if fs.fsExists tsxDir then
    (fs.listTsx tsxDir).foldl (cleanOrphanStep fs config valid tsxDir) ⟨[], [], 0⟩
  else ⟨[], [], 0⟩

/-- `warningToDiagnostic` from `compiler/collect.ts`: relativize the filename,
shift the 0-based column to 1-based, tag the entry with the svelte source and
its symbolic code. -/
def warningToDiagnostic (w : SvelteWarning) (rootDir : Str) : MappedDiagnostic :=
  let relativePath := if rootDir.isPrefixOf w.filename then jsRelative rootDir w.filename
                      else w.filename
  let column := w.startColumn + 1
  { file := relativePath
    line := w.startLine
    column := column
    code := 0
    message := w.message
    severity := Severity.warning
    source := some DiagSource.svelte
    originalFile := relativePath
    originalLine := w.startLine
    originalColumn := column
    svelteCode := some w.code }

/-- `getWarningsCachePath` from `compiler/collect.ts`. -/
def getWarningsCachePath (config : FastCheckConfig) (sourcePath : Str) : Str :=
  jsResolve2 (jsResolve2 (jsResolve2 config.rootDir (getCacheRoot config)) ("warnings".data))
    (flattenPath (jsRelative config.rootDir sourcePath) ++ ".json".data)

/-- The per-file body of `collectChangedSvelteWarnings`: use the cached
warnings when the cache record exists, parses, and its stored mtime is at
least the source mtime; on a missing, stale, or unparseable record, compile
afresh.  (The cache write after recompiling is a state change outside this
read-only model.) -/
def collectWarningsForFile (fs : FS) (config : FastCheckConfig) (file : Str) :
    List MappedDiagnostic :=
  let sourcePath := jsResolve2 config.rootDir file
  let cachePath := getWarningsCachePath config sourcePath
  if fs.fsExists cachePath && fs.fsExists sourcePath then
    match fs.parseWarningsJson (fs.contentOf cachePath) with
    | some cached =>
      if fs.mtime sourcePath ≤ cached.mtime then
        cached.warnings.map (fun w => warningToDiagnostic w config.rootDir)
      else
        (fs.compileWarnings sourcePath).map (fun w => warningToDiagnostic w config.rootDir)
    | none =>
      (fs.compileWarnings sourcePath).map (fun w => warningToDiagnostic w config.rootDir)
  else
    (fs.compileWarnings sourcePath).map (fun w => warningToDiagnostic w config.rootDir)

/-- Worker result record (`WorkerOutput` from `types.ts`, duration elided). -/
structure WorkerOutput where
  diagnostics : List MappedDiagnostic
  error : Option Str := none

/-- The close handler of the engine invocation in `typecheck/worker.ts`:
a non-zero exit with whitespace-only output rejects; otherwise the collected
output is delivered for parsing, whatever the exit code. -/
def processTsgoClose (exitCode : Int) (output : Str) : Except Str Str :=
  if exitCode ≠ 0 ∧ jsTrimStr output = [] then
    Except.error ("tsgo execution failed".data)
  else Except.ok output

/-- Steps 3–5 of the worker's non-raw path: parse the engine output, tag the
diagnostics as type-checker-sourced, filter false positives, remap through
the sourcemaps and drop non-positive original coordinates. -/
def typecheckPipeline (output : Str) (sourcemaps : Str → Option SourceMapData)
    (tsxContents : Str → Option Str) (rootDir cacheDir : Str) : List MappedDiagnostic :=
  let ds := (parseTscOutput output).map (fun d => { d with source := some DiagSource.ts })
  let kept := filterFalsePositives ds tsxContents
  filterNegativeLines (mapDiagnostics kept sourcemaps rootDir tsxContents cacheDir)

/-- The `run` function of `typecheck/worker.ts` on its non-raw path, given the
engine's exit code and collected output: a rejected engine invocation is
caught and reported as a worker error with no diagnostics; otherwise the
pipeline result is returned. -/
def typecheckWorkerRun (exitCode : Int) (output : Str) (sourcemaps : Str → Option SourceMapData)
    (tsxContents : Str → Option Str) (rootDir cacheDir : Str) : WorkerOutput :=
  match processTsgoClose exitCode output with
  | Except.error e => { diagnostics := [], error := some e }
  | Except.ok out =>
    { diagnostics := typecheckPipeline out sourcemaps tsxContents rootDir cacheDir
      error := none }

/-- `CheckResult` from `types.ts` (duration elided). -/
structure CheckResult where
  diagnostics : List MappedDiagnostic
  errorCount : Nat
  warningCount : Nat

/-- Truthiness of `d.svelteCode` in JavaScript: missing or empty is falsy. -/
def isFalsyCode : Option Str → Bool
  | none => true
  | some s => s.isEmpty

/-- The post-merge warning-filter application in `runner.ts`: an entry is kept
when it is not svelte-sourced, or carries no truthy symbolic code, or the
predicate accepts its code and message. -/
def applyWarningFilter (warningFilter : Option (Str → Str → Bool))
    (ds : List MappedDiagnostic) : List MappedDiagnostic :=
  match warningFilter with
  | none => ds
  | some f =>
    ds.filter (fun d =>
      decide (d.source ≠ some DiagSource.svelte) || isFalsyCode d.svelteCode ||
      f (d.svelteCode.getD []) d.message)

/-- Build the `CheckResult` of `runner.ts` from the final diagnostics. -/
def buildCheckResult (ds : List MappedDiagnostic) : CheckResult :=
  let counts := countDiagnostics (ds.map (fun d => d.toDiagnostic))
  ⟨ds, counts.1, counts.2⟩

/-- The non-raw tail of `run` in `runner.ts`: fail on a worker error, else
concatenate the type-check diagnostics with the compiler worker's (when that
worker ran), apply the optional warning filter, and count. -/
def runnerRun (tc : WorkerOutput) (comp : Option WorkerOutput)
    (warningFilter : Option (Str → Str → Bool)) : Except Str CheckResult :=
  match tc.error with
  | some e => Except.error ("TypeCheck worker failed: ".data ++ e)
  | none =>
    match comp with
    | some c =>
      (match c.error with
       | some e => Except.error ("Compiler worker failed: ".data ++ e)
       | none =>
         Except.ok (buildCheckResult (applyWarningFilter warningFilter
           (tc.diagnostics ++ c.diagnostics))))
    | none =>
      Except.ok (buildCheckResult (applyWarningFilter warningFilter (tc.diagnostics ++ [])))

/-- The classification loop is the skip-condition partition of the discovered
files, in order. -/
theorem classifyFiles_eq (fs : FS) (config : FastCheckConfig) (files : List Str) :
    classifyFiles fs config files =
      ((files.filter (fun f => shouldSkipFile fs (jsResolve2 config.rootDir f)
          (getTsxPath config (jsResolve2 config.rootDir f))
          (getMapPath config (jsResolve2 config.rootDir f)))).map
        (fun f => ⟨jsResolve2 config.rootDir f,
                   getTsxPath config (jsResolve2 config.rootDir f),
                   getMapPath config (jsResolve2 config.rootDir f)⟩),
       (files.filter (fun f => ! shouldSkipFile fs (jsResolve2 config.rootDir f)
          (getTsxPath config (jsResolve2 config.rootDir f))
          (getMapPath config (jsResolve2 config.rootDir f)))).map
        (fun f => jsResolve2 config.rootDir f)) := by
  induction files with
  | nil => simp [classifyFiles]
  | cons f rest ih =>
    by_cases h : shouldSkipFile fs (jsResolve2 config.rootDir f)
        (getTsxPath config (jsResolve2 config.rootDir f))
        (getMapPath config (jsResolve2 config.rootDir f)) = true
    · simp [classifyFiles, ih, List.filter_cons, h]
    · simp only [Bool.not_eq_true] at h
      simp [classifyFiles, ih, List.filter_cons, h]

/-- C4: in incremental mode, a discovered source file's regeneration is
skipped exactly when its generated file and its sourcemap both exist and the
generated file's mtime is at least the source file's mtime (`shouldSkipFile`);
skipped files get their result from the stored sourcemap, and every other
file is transpiled anew (`convertOne`). -/
theorem c4_incremental_skip_iff (fs : FS) (config : FastCheckConfig) (files : List Str) :
    convertChangedFilesModel fs config files =
      ((files.filter (fun f => shouldSkipFile fs (jsResolve2 config.rootDir f)
          (getTsxPath config (jsResolve2 config.rootDir f))
          (getMapPath config (jsResolve2 config.rootDir f)))).map
        (fun f => skippedResult fs ⟨jsResolve2 config.rootDir f,
                   getTsxPath config (jsResolve2 config.rootDir f),
                   getMapPath config (jsResolve2 config.rootDir f)⟩)) ++
      ((files.filter (fun f => ! shouldSkipFile fs (jsResolve2 config.rootDir f)
          (getTsxPath config (jsResolve2 config.rootDir f))
          (getMapPath config (jsResolve2 config.rootDir f)))).map
        (fun f => convertOne fs config (jsResolve2 config.rootDir f))) := by
  simp [convertChangedFilesModel, classifyFiles_eq, List.map_map, Function.comp_def]

/-- C2: a diagnostic whose character offset lies inside an ignore region
(`isInGeneratedCode`) survives `filterFalsePositives` exactly when it has the
store-misuse code 2769 and sits immediately after the getter-wrapper pattern
(`isStoreVariableInStoreDeclaration`); every other in-region diagnostic is
dropped, whatever the remaining rules would say. -/
theorem c2_ignore_region_filtering (ds : List Diagnostic) (tsxContents : Str → Option Str)
    (d : Diagnostic) (content : Str)
    (hc : tsxContents d.file = some content)
    (hin : isInGeneratedCode content d = true) :
    d ∈ filterFalsePositives ds tsxContents ↔
      d ∈ ds ∧ d.code = tsNoOverloadMatches ∧
        isStoreVariableInStoreDeclaration content d = true := by
  simp [filterFalsePositives, List.mem_filter, keepDiagnostic, hc, hin, and_assoc]

/-- A generated file content with one ignore region for the C2 witness. -/
def c2Content : Str := "/*Ωignore_startΩ*/ bad /*Ωignore_endΩ*/ ok".data

/-- A non-store diagnostic positioned inside the ignore region of
`c2Content` (offset 20). -/
def c2Diag : Diagnostic :=
  { file := "src/a.svelte.tsx".data, line := 1, column := 21, code := 1000,
    message := "some error".data, severity := Severity.error }

/-- The content map used by the C2 witness. -/
def c2Contents : Str → Option Str :=
  fun f => if f = "src/a.svelte.tsx".data then some c2Content else none

theorem c2_ignore_region_filtering_witness :
    c2Diag ∈ filterFalsePositives [c2Diag] c2Contents ↔
      c2Diag ∈ [c2Diag] ∧ c2Diag.code = tsNoOverloadMatches ∧
        isStoreVariableInStoreDeclaration c2Content c2Diag = true :=
  c2_ignore_region_filtering [c2Diag] c2Contents c2Diag c2Content (by decide) (by decide)

/-- C7: the per-diagnostic case analysis of `mapDiagnostic`: a non-generated
file passes through with its coordinates copied; a generated file without a
sourcemap is relabeled, not dropped; a successful query yields the queried
line and the 0-based-to-1-based shifted column; a failed query drops the
diagnostic unless the store-misuse rescue produces a location. -/
theorem c7_mapDiagnostic_cases (d : Diagnostic) (sm : Str → Option SourceMapData)
    (rootDir : Str) (tsx : Str → Option Str) (cacheDir : Str) :
    (endsWithStr d.file (".svelte.tsx".data) = false →
      mapDiagnostic d sm rootDir tsx cacheDir =
        some { d with originalFile := d.file, originalLine := d.line,
                      originalColumn := d.column }) ∧
    (endsWithStr d.file (".svelte.tsx".data) = true →
      sm (jsResolve2 rootDir d.file) = none →
      mapDiagnostic d sm rootDir tsx cacheDir =
        some { d with originalFile := tsxPathToOriginal rootDir d.file cacheDir,
                      originalLine := d.line, originalColumn := d.column }) ∧
    (∀ tracer ol oc, endsWithStr d.file (".svelte.tsx".data) = true →
      sm (jsResolve2 rootDir d.file) = some tracer →
      tracer.query d.line (d.column - 1) = some (ol, oc) →
      mapDiagnostic d sm rootDir tsx cacheDir =
        some { d with originalFile := tsxPathToOriginal rootDir d.file cacheDir,
                      originalLine := ol, originalColumn := oc + 1 }) ∧
    (∀ tracer, endsWithStr d.file (".svelte.tsx".data) = true →
      sm (jsResolve2 rootDir d.file) = some tracer →
      tracer.query d.line (d.column - 1) = none →
      mapDiagnostic d sm rootDir tsx cacheDir = none ∨
      (d.code = tsNoOverloadMatches ∧ ∃ content loc, tsx d.file = some content ∧
        findStoreUsageLocation content d tracer = some loc ∧
        mapDiagnostic d sm rootDir tsx cacheDir =
          some { d with originalFile := tsxPathToOriginal rootDir d.file cacheDir,
                        originalLine := loc.line, originalColumn := loc.column,
                        message := storeRescuePre loc.storeName ++ d.message })) := by
  refine ⟨?_, ?_, ?_, ?_⟩
  · intro h1
    simp [mapDiagnostic, h1]
  · intro h1 h2
    simp [mapDiagnostic, h1, h2]
  · intro tracer ol oc h1 h2 h3
    simp [mapDiagnostic, h1, h2, h3]
  · intro tracer h1 h2 h3
    by_cases hcode : d.code = tsNoOverloadMatches
    · cases hcontent : tsx d.file with
      | none => exact Or.inl (by simp [mapDiagnostic, h1, h2, h3, hcode, hcontent])
      | some content =>
        cases hloc : findStoreUsageLocation content d tracer with
        | none => exact Or.inl (by simp [mapDiagnostic, h1, h2, h3, hcode, hcontent, hloc])
        | some loc =>
          refine Or.inr ⟨hcode, content, loc, rfl, hloc, ?_⟩
          simp [mapDiagnostic, h1, h2, h3, hcode, hcontent, hloc]
    · exact Or.inl (by simp [mapDiagnostic, h1, h2, h3, hcode])

/-- A plain `.ts` diagnostic for the C7 witness. -/
def c7DiagTs : Diagnostic :=
  { file := "src/util.ts".data, line := 4, column := 2, code := 2304,
    message := "Cannot find name".data, severity := Severity.error }

/-- A generated-file diagnostic for the C7 witness. -/
def c7DiagTsx : Diagnostic :=
  { file := ".fast-check/tsx/src/a.svelte.tsx".data, line := 9, column := 3, code := 2322,
    message := "Type mismatch".data, severity := Severity.error }

theorem c7_mapDiagnostic_cases_witness :
    mapDiagnostic c7DiagTs (fun _ => none) ("/r".data) (fun _ => none) (".fast-check".data) =
      some { c7DiagTs with originalFile := c7DiagTs.file, originalLine := c7DiagTs.line,
                           originalColumn := c7DiagTs.column } ∧
    mapDiagnostic c7DiagTsx (fun _ => none) ("/r".data) (fun _ => none) (".fast-check".data) =
      some { c7DiagTsx with
               originalFile := tsxPathToOriginal ("/r".data) c7DiagTsx.file (".fast-check".data),
               originalLine := c7DiagTsx.line, originalColumn := c7DiagTsx.column } :=
  ⟨(c7_mapDiagnostic_cases c7DiagTs (fun _ => none) ("/r".data) (fun _ => none)
      (".fast-check".data)).1 (by decide),
   (c7_mapDiagnostic_cases c7DiagTsx (fun _ => none) ("/r".data) (fun _ => none)
      (".fast-check".data)).2.1 (by decide) rfl⟩

/-- C10: the per-diagnostic remapping either drops its input or returns a
`MappedDiagnostic` agreeing with the input on `file`, `line`, `column`,
`code`, `severity` and `source`, adding only the original coordinates; the
message is always the input message, possibly extended by a prefix (the
store-misuse rescue), never replaced. -/
theorem c10_mapDiagnostic_frame (d : Diagnostic) (sm : Str → Option SourceMapData)
    (rootDir : Str) (tsx : Str → Option Str) (cacheDir : Str) :
    mapDiagnostic d sm rootDir tsx cacheDir = none ∨
    ∃ md, mapDiagnostic d sm rootDir tsx cacheDir = some md ∧
      md.file = d.file ∧ md.line = d.line ∧ md.column = d.column ∧ md.code = d.code ∧
      md.severity = d.severity ∧ md.source = d.source ∧
      ∃ p, md.message = p ++ d.message := by
  by_cases h1 : endsWithStr d.file (".svelte.tsx".data) = true
  · cases h2 : sm (jsResolve2 rootDir d.file) with
    | none =>
      refine Or.inr ⟨{ d with originalFile := tsxPathToOriginal rootDir d.file cacheDir,
                              originalLine := d.line, originalColumn := d.column }, ?_,
                     rfl, rfl, rfl, rfl, rfl, rfl, [], rfl⟩
      simp [mapDiagnostic, h1, h2]
    | some tracer =>
      cases h3 : tracer.query d.line (d.column - 1) with
      | some p =>
        obtain ⟨ol, oc⟩ := p
        refine Or.inr ⟨{ d with originalFile := tsxPathToOriginal rootDir d.file cacheDir,
                                originalLine := ol, originalColumn := oc + 1 }, ?_,
                       rfl, rfl, rfl, rfl, rfl, rfl, [], rfl⟩
        simp [mapDiagnostic, h1, h2, h3]
      | none =>
        by_cases hcode : d.code = tsNoOverloadMatches
        · cases hcontent : tsx d.file with
          | none => exact Or.inl (by simp [mapDiagnostic, h1, h2, h3, hcode, hcontent])
          | some content =>
            cases hloc : findStoreUsageLocation content d tracer with
            | none => exact Or.inl (by simp [mapDiagnostic, h1, h2, h3, hcode, hcontent, hloc])
            | some loc =>
              refine Or.inr ⟨{ d with originalFile := tsxPathToOriginal rootDir d.file cacheDir,
                                      originalLine := loc.line, originalColumn := loc.column,
                                      message := storeRescuePre loc.storeName ++ d.message }, ?_,
                             rfl, rfl, rfl, rfl, rfl, rfl, storeRescuePre loc.storeName, rfl⟩
              simp [mapDiagnostic, h1, h2, h3, hcode, hcontent, hloc]
        · exact Or.inl (by simp [mapDiagnostic, h1, h2, h3, hcode])
  · refine Or.inr ⟨{ d with originalFile := d.file, originalLine := d.line,
                            originalColumn := d.column }, ?_,
                   rfl, rfl, rfl, rfl, rfl, rfl, [], rfl⟩
    simp [mapDiagnostic, h1]

/-- C3: for a store-misuse (2769) diagnostic whose own position fails to map,
the rescue scan (`findStoreUsageLocation`: extract the wrapped identifier
from the getter-wrapper call on the error line, then find the first
comment-free, token-bounded `$name` occurrence on a later line that maps)
determines the outcome: a found location yields a `MappedDiagnostic` at its
mapped position whose message is the rescue explanation naming the store
followed by the original message; no such occurrence drops the diagnostic. -/
theorem c3_store_misuse_rescue (d : Diagnostic) (sm : Str → Option SourceMapData)
    (rootDir : Str) (tsx : Str → Option Str) (cacheDir : Str) (content : Str)
    (tracer : SourceMapData)
    (hfile : endsWithStr d.file (".svelte.tsx".data) = true)
    (hsm : sm (jsResolve2 rootDir d.file) = some tracer)
    (hq : tracer.query d.line (d.column - 1) = none)
    (hcode : d.code = tsNoOverloadMatches)
    (hc : tsx d.file = some content) :
    (∀ loc, findStoreUsageLocation content d tracer = some loc →
      mapDiagnostic d sm rootDir tsx cacheDir =
        some { d with originalFile := tsxPathToOriginal rootDir d.file cacheDir,
                      originalLine := loc.line, originalColumn := loc.column,
                      message := storeRescuePre loc.storeName ++ d.message }) ∧
    (findStoreUsageLocation content d tracer = none →
      mapDiagnostic d sm rootDir tsx cacheDir = none) := by
  constructor
  · intro loc hloc
    simp [mapDiagnostic, hfile, hsm, hq, hcode, hc, hloc]
  · intro hloc
    simp [mapDiagnostic, hfile, hsm, hq, hcode, hc, hloc]

/-- Generated content for the C3 witness: a store declaration wrapping `foo`,
a commented-out `$foo`, then the real `$foo` usage. -/
def c3Content : Str :=
  ("let $foo = __sveltets_2_store_get(foo);\n" ++
   "// $foo in comment\n" ++
   "$foo + 1;").data

/-- The store-misuse diagnostic of the C3 witness, positioned at the wrapped
identifier on the first line. -/
def c3Diag : Diagnostic :=
  { file := "a.svelte.tsx".data, line := 1, column := 35, code := 2769,
    message := "No overload matches this call.".data, severity := Severity.error }

/-- The C3 witness sourcemap: only the `$foo` position on line 3 maps. -/
def c3Tracer : SourceMapData :=
  ⟨fun l c => if l = 3 ∧ c = 0 then some (5, 7) else none⟩

/-- The C3 witness sourcemap store. -/
def c3Sourcemaps : Str → Option SourceMapData :=
  fun p => if p = "/r/a.svelte.tsx".data then some c3Tracer else none

/-- The C3 witness content map. -/
def c3Contents : Str → Option Str :=
  fun f => if f = "a.svelte.tsx".data then some c3Content else none

theorem c3_store_misuse_rescue_witness :
    mapDiagnostic c3Diag c3Sourcemaps ("/r".data) c3Contents (".fast-check".data) =
      some { c3Diag with
               originalFile := tsxPathToOriginal ("/r".data) c3Diag.file (".fast-check".data),
               originalLine := 5, originalColumn := 8,
               message := storeRescuePre ("foo".data) ++ c3Diag.message } :=
  (c3_store_misuse_rescue c3Diag c3Sourcemaps ("/r".data) c3Contents (".fast-check".data)
      c3Content c3Tracer (by decide) rfl rfl rfl rfl).1 ⟨5, 8, "foo".data⟩ (by decide)

/-- Membership in the filtered merge: an entry survives the warning filter
exactly when it was merged and, if it is svelte-sourced with a non-empty
symbolic code, the predicate accepts it. -/
theorem mem_applyWarningFilter (f : Str → Str → Bool) (ds : List MappedDiagnostic)
    (d : MappedDiagnostic) :
    d ∈ applyWarningFilter (some f) ds ↔
      d ∈ ds ∧ (d.source = some DiagSource.svelte → ∀ sc, d.svelteCode = some sc →
        sc ≠ [] → f sc d.message = true) := by
  simp only [applyWarningFilter, List.mem_filter]
  refine and_congr_right (fun _ => ?_)
  constructor
  · intro hb hsv sc hsc hne
    simp only [Bool.or_eq_true, decide_eq_true_eq] at hb
    rcases hb with (hb | hb) | hb
    · exact absurd hsv hb
    · rw [hsc] at hb
      simp only [isFalsyCode, List.isEmpty_iff] at hb
      exact absurd hb hne
    · rw [hsc] at hb
      simpa using hb
  · intro h
    by_cases hsv : d.source = some DiagSource.svelte
    · cases hsc : d.svelteCode with
      | none => simp [isFalsyCode, hsc]
      | some sc =>
        by_cases hne : sc = []
        · simp [isFalsyCode, hsc, hne]
        · have hf := h hsv sc hsc hne
          simp [hsc, hf]
    · simp [hsv]

/-- C9: with a warning filter configured, the post-merge suppression keeps an
entry exactly when it was merged and, if svelte-sourced with a truthy
symbolic code, the predicate accepts it; in particular every
type-checker-sourced diagnostic of the merge survives. -/
theorem c9_warning_filter_scope (tc c : WorkerOutput) (f : Str → Str → Bool)
    (res : CheckResult)
    (htc : tc.error = none) (hcerr : c.error = none)
    (hrun : runnerRun tc (some c) (some f) = Except.ok res) :
    (∀ d, d ∈ res.diagnostics ↔
      d ∈ tc.diagnostics ++ c.diagnostics ∧
        (d.source = some DiagSource.svelte → ∀ sc, d.svelteCode = some sc → sc ≠ [] →
          f sc d.message = true)) ∧
    (∀ d, d ∈ tc.diagnostics ++ c.diagnostics → d.source = some DiagSource.ts →
      d ∈ res.diagnostics) := by
  have hres : res = buildCheckResult (applyWarningFilter (some f)
      (tc.diagnostics ++ c.diagnostics)) := by
    simp [runnerRun, htc, hcerr] at hrun
    exact hrun.symm
  have hdiag : res.diagnostics = applyWarningFilter (some f)
      (tc.diagnostics ++ c.diagnostics) := by
    rw [hres]
    rfl
  constructor
  · intro d
    rw [hdiag]
    exact mem_applyWarningFilter f _ d
  · intro d hd hts
    rw [hdiag, mem_applyWarningFilter]
    refine ⟨hd, fun hsv => ?_⟩
    rw [hts] at hsv
    cases hsv

/-- The type-checker-sourced entry of the C9 witness. -/
def c9TsDiag : MappedDiagnostic :=
  { file := "src/a.svelte.tsx".data, line := 3, column := 2, code := 2322,
    message := "Type mismatch".data, severity := Severity.error,
    source := some DiagSource.ts, originalFile := "src/a.svelte".data,
    originalLine := 2, originalColumn := 1 }

/-- The svelte-sourced entry of the C9 witness. -/
def c9SvDiag : MappedDiagnostic :=
  { file := "src/a.svelte".data, line := 5, column := 4, code := 0,
    message := "unused selector".data, severity := Severity.warning,
    source := some DiagSource.svelte, originalFile := "src/a.svelte".data,
    originalLine := 5, originalColumn := 4, svelteCode := some ("css_unused_selector".data) }

/-- The rejecting predicate of the C9 witness. -/
def c9Reject : Str → Str → Bool := fun _ _ => false

theorem c9_warning_filter_scope_witness :
    c9TsDiag ∈ (buildCheckResult (applyWarningFilter (some c9Reject)
      (WorkerOutput.diagnostics ⟨[c9TsDiag], none⟩ ++
       WorkerOutput.diagnostics ⟨[c9SvDiag], none⟩))).diagnostics :=
  (c9_warning_filter_scope ⟨[c9TsDiag], none⟩ ⟨[c9SvDiag], none⟩ c9Reject
    (buildCheckResult (applyWarningFilter (some c9Reject)
      (WorkerOutput.diagnostics ⟨[c9TsDiag], none⟩ ++
       WorkerOutput.diagnostics ⟨[c9SvDiag], none⟩)))
    rfl rfl rfl).2 c9TsDiag (by decide) rfl

/-- The warning filter only removes entries. -/
theorem applyWarningFilter_subset (wf : Option (Str → Str → Bool))
    (ds : List MappedDiagnostic) (d : MappedDiagnostic)
    (h : d ∈ applyWarningFilter wf ds) : d ∈ ds := by
  cases wf with
  | none => simpa [applyWarningFilter] using h
  | some f =>
    simp only [applyWarningFilter, List.mem_filter] at h
    exact h.1

/-- Everything surviving `filterNegativeLines` has positive original
coordinates. -/
theorem mem_filterNegativeLines_pos (ds : List MappedDiagnostic) (d : MappedDiagnostic)
    (h : d ∈ filterNegativeLines ds) : 1 ≤ d.originalLine ∧ 1 ≤ d.originalColumn := by
  simp only [filterNegativeLines, List.mem_filter, Bool.and_eq_true, decide_eq_true_eq] at h
  omega

/-- C1: on a completed non-raw run, every diagnostic of the final
`CheckResult` — type-checker diagnostics and compiler warnings merged — has
original line and column at least 1: the worker output passed through
`filterNegativeLines`, and warnings (1-based compiler lines, 0-based columns
shifted by one) cannot introduce non-positive coordinates. -/
theorem c1_no_nonpositive_coordinates (exitCode : Int) (output : Str)
    (sm : Str → Option SourceMapData) (tsx : Str → Option Str) (rootDir cacheDir : Str)
    (comp : Option WorkerOutput) (wf : Option (Str → Str → Bool)) (res : CheckResult)
    (hcomp : ∀ cw, comp = some cw → ∃ ws : List SvelteWarning,
      (∀ w ∈ ws, 1 ≤ w.startLine ∧ 0 ≤ w.startColumn) ∧
      cw.diagnostics = ws.map (fun w => warningToDiagnostic w rootDir))
    (hrun : runnerRun (typecheckWorkerRun exitCode output sm tsx rootDir cacheDir) comp wf =
      Except.ok res) :
    ∀ d ∈ res.diagnostics, 1 ≤ d.originalLine ∧ 1 ≤ d.originalColumn := by
  by_cases hfail : exitCode ≠ 0 ∧ jsTrimStr output = []
  · exfalso
    simp [typecheckWorkerRun, processTsgoClose, hfail, runnerRun] at hrun
  · have htc : typecheckWorkerRun exitCode output sm tsx rootDir cacheDir =
        ⟨typecheckPipeline output sm tsx rootDir cacheDir, none⟩ := by
      simp [typecheckWorkerRun, processTsgoClose, hfail]
    rw [htc] at hrun
    intro d hd
    have hpipe : ∀ x, x ∈ typecheckPipeline output sm tsx rootDir cacheDir →
        1 ≤ x.originalLine ∧ 1 ≤ x.originalColumn := by
      intro x hx
      exact mem_filterNegativeLines_pos _ x hx
    cases comp with
    | none =>
      have hres : res = buildCheckResult (applyWarningFilter wf
          (typecheckPipeline output sm tsx rootDir cacheDir ++ [])) := by
        simp only [runnerRun] at hrun
        exact (Except.ok.inj hrun).symm
      rw [hres] at hd
      have hmem := applyWarningFilter_subset wf _ d hd
      rw [List.append_nil] at hmem
      exact hpipe d hmem
    | some cw =>
      cases hce : cw.error with
      | some e =>
        exfalso
        simp [runnerRun, hce] at hrun
      | none =>
        have hres : res = buildCheckResult (applyWarningFilter wf
            (typecheckPipeline output sm tsx rootDir cacheDir ++ cw.diagnostics)) := by
          simp only [runnerRun, hce] at hrun
          exact (Except.ok.inj hrun).symm
        rw [hres] at hd
        have hmem := applyWarningFilter_subset wf _ d hd
        rcases List.mem_append.mp hmem with hl | hr
        · exact hpipe d hl
        · obtain ⟨ws, hws, hcd⟩ := hcomp cw rfl
          rw [hcd] at hr
          obtain ⟨w, hw, hwd⟩ := List.mem_map.mp hr
          have hb := hws w hw
          rw [← hwd]
          simp only [warningToDiagnostic]
          constructor
          · exact hb.1
          · omega

/-- The compiler warning of the C1 witness (1-based line 3, 0-based column 0). -/
def c1Warning : SvelteWarning :=
  ⟨"a11y_missing_attribute".data, "missing attribute".data, "/r/src/a.svelte".data, 3, 0⟩

/-- The compiler worker output of the C1 witness. -/
def c1Comp : WorkerOutput := ⟨[warningToDiagnostic c1Warning ("/r".data)], none⟩

/-- The engine output of the C1 witness. -/
def c1Output : Str := "x.svelte.tsx(2,5): error TS2304: boom".data

theorem c1_no_nonpositive_coordinates_witness :
    1 ≤ (warningToDiagnostic c1Warning ("/r".data)).originalLine ∧
    1 ≤ (warningToDiagnostic c1Warning ("/r".data)).originalColumn :=
  c1_no_nonpositive_coordinates 0 c1Output (fun _ => none) (fun _ => none) ("/r".data)
    (".fast-check".data) (some c1Comp) none
    (buildCheckResult (applyWarningFilter none
      (typecheckPipeline c1Output (fun _ => none) (fun _ => none) ("/r".data)
        (".fast-check".data) ++ c1Comp.diagnostics)))
    (fun cw hcw => by
      cases hcw
      exact ⟨[c1Warning], by decide, rfl⟩)
    rfl
    (warningToDiagnostic c1Warning ("/r".data))
    (by decide)

/-- C8: the engine-invocation contract: a non-zero exit with whitespace-only
output makes the whole run fail with an error — the worker reports no
diagnostics and the runner aborts — while any output with non-whitespace
content is parsed and pushed through the pipeline regardless of the exit
code. -/
theorem c8_engine_exit_contract (exitCode : Int) (output : Str)
    (sm : Str → Option SourceMapData) (tsx : Str → Option Str) (rootDir cacheDir : Str)
    (comp : Option WorkerOutput) (wf : Option (Str → Str → Bool)) :
    (exitCode ≠ 0 → jsTrimStr output = [] →
      (typecheckWorkerRun exitCode output sm tsx rootDir cacheDir).diagnostics = [] ∧
      ∃ e, runnerRun (typecheckWorkerRun exitCode output sm tsx rootDir cacheDir) comp wf =
        Except.error e) ∧
    (jsTrimStr output ≠ [] →
      typecheckWorkerRun exitCode output sm tsx rootDir cacheDir =
        ⟨typecheckPipeline output sm tsx rootDir cacheDir, none⟩) := by
  constructor
  · intro hnz htrim
    have hw : typecheckWorkerRun exitCode output sm tsx rootDir cacheDir =
        ⟨[], some ("tsgo execution failed".data)⟩ := by
      simp [typecheckWorkerRun, processTsgoClose, hnz, htrim]
    rw [hw]
    exact ⟨rfl, _, rfl⟩
  · intro htrim
    have hcond : ¬ (exitCode ≠ 0 ∧ jsTrimStr output = []) := fun h => htrim h.2
    simp [typecheckWorkerRun, processTsgoClose, hcond]

theorem c8_engine_exit_contract_witness :
    ((typecheckWorkerRun 2 ("  \n".data) (fun _ => none) (fun _ => none) ("/r".data)
        (".fast-check".data)).diagnostics = [] ∧
      ∃ e, runnerRun (typecheckWorkerRun 2 ("  \n".data) (fun _ => none) (fun _ => none)
        ("/r".data) (".fast-check".data)) none none = Except.error e) ∧
    (typecheckWorkerRun 3 ("x.svelte.tsx(1,1): error TS2304: nope".data) (fun _ => none)
        (fun _ => none) ("/r".data) (".fast-check".data) =
      ⟨typecheckPipeline ("x.svelte.tsx(1,1): error TS2304: nope".data) (fun _ => none)
        (fun _ => none) ("/r".data) (".fast-check".data), none⟩) :=
  ⟨(c8_engine_exit_contract 2 ("  \n".data) (fun _ => none) (fun _ => none) ("/r".data)
      (".fast-check".data) none none).1 (by decide) (by decide),
   (c8_engine_exit_contract 3 ("x.svelte.tsx(1,1): error TS2304: nope".data) (fun _ => none)
      (fun _ => none) ("/r".data) (".fast-check".data) none none).2 (by decide)⟩

/-- No iteration of the deletion loop ever deletes a generated file of the
valid set. -/
theorem cleanOrphan_fold_valid (fs : FS) (config : FastCheckConfig) (valid : List Str)
    (tsxDir : Str) (l : List Str) :
    ∀ acc : CleanResult, (∀ p ∈ acc.deletedTsx, p ∉ valid) →
      ∀ p ∈ (l.foldl (cleanOrphanStep fs config valid tsxDir) acc).deletedTsx, p ∉ valid := by
  induction l with
  | nil => intro acc hacc; exact hacc
  | cons f rest ih =>
    intro acc hacc
    apply ih
    intro p hp
    unfold cleanOrphanStep at hp
    by_cases hv : jsResolve2 tsxDir f ∈ valid
    · simp only [hv, decide_eq_true_eq, if_true, if_pos] at hp
      exact hacc p hp
    · rw [if_neg (by simpa using hv)] at hp
      by_cases hu : fs.unlinkFails (jsResolve2 tsxDir f) = true
      · simp only [hu, if_true] at hp
        exact hacc p hp
      · simp only [Bool.not_eq_true] at hu
        simp only [hu, if_false] at hp
        by_cases he : fs.fsExists (jsResolve2 (jsResolve2 (jsResolve2 config.rootDir
            (getCacheRoot config)) ("maps".data))
            (flattenPath (stripTsxExt f) ++ ".map.json".data)) = true
        · by_cases hm : fs.unlinkFails (jsResolve2 (jsResolve2 (jsResolve2 config.rootDir
              (getCacheRoot config)) ("maps".data))
              (flattenPath (stripTsxExt f) ++ ".map.json".data)) = true
          · simp only [he, if_true, hm] at hp
            rcases List.mem_append.mp hp with h | h
            · exact hacc p h
            · rcases List.mem_singleton.mp h with rfl
              exact hv
          · simp only [Bool.not_eq_true] at hm
            simp only [he, if_true, hm, if_false] at hp
            rcases List.mem_append.mp hp with h | h
            · exact hacc p h
            · rcases List.mem_singleton.mp h with rfl
              exact hv
        · simp only [Bool.not_eq_true] at he
          simp only [he, if_false] at hp
          rcases List.mem_append.mp hp with h | h
          · exact hacc p h
          · rcases List.mem_singleton.mp h with rfl
            exact hv

/-- When no deletion throws, the loop deletes exactly the listed generated
files outside the valid set, in listing order. -/
theorem cleanOrphan_fold_exact (fs : FS) (config : FastCheckConfig) (valid : List Str)
    (tsxDir : Str) (hok : ∀ q, fs.unlinkFails q = false) (l : List Str) :
    ∀ acc : CleanResult,
      (l.foldl (cleanOrphanStep fs config valid tsxDir) acc).deletedTsx =
        acc.deletedTsx ++
          ((l.map (jsResolve2 tsxDir)).filter (fun p => ! decide (p ∈ valid))) := by
  induction l with
  | nil => intro acc; simp
  | cons f rest ih =>
    intro acc
    simp only [List.foldl_cons, List.map_cons, List.filter_cons]
    by_cases hv : jsResolve2 tsxDir f ∈ valid
    · have hstep : cleanOrphanStep fs config valid tsxDir acc f = acc := by
        unfold cleanOrphanStep
        simp [hv]
      rw [hstep, ih acc]
      simp [hv]
    · have hd : ∃ dm c, cleanOrphanStep fs config valid tsxDir acc f =
          ⟨acc.deletedTsx ++ [jsResolve2 tsxDir f], dm, c⟩ := by
        unfold cleanOrphanStep
        rw [if_neg (by simpa using hv), if_neg (by simp [hok])]
        by_cases he : fs.fsExists (jsResolve2 (jsResolve2 (jsResolve2 config.rootDir
            (getCacheRoot config)) ("maps".data))
            (flattenPath (stripTsxExt f) ++ ".map.json".data)) = true
        · simp only [he, if_true]
          rw [if_neg (by simp [hok])]
          exact ⟨_, _, rfl⟩
        · simp only [Bool.not_eq_true] at he
          simp only [he, if_false]
          exact ⟨_, _, rfl⟩
      obtain ⟨dm, c, hstep⟩ := hd
      rw [hstep, ih]
      simp [hv]

/-- C6 (amended): orphan cleanup never deletes a generated file of the valid
set, and when the generated directory exists and no deletion throws it
deletes exactly the listed generated files outside the valid set.  (The
companion counterexample shows the sourcemap half of the original claim
fails: a deleted orphan's flattened sourcemap name can coincide with a valid
file's sourcemap.) -/
theorem c6_orphan_cleanup_amended (fs : FS) (config : FastCheckConfig) (valid : List Str) :
    (∀ p ∈ (cleanOrphanTsxFiles fs config valid).deletedTsx, p ∉ valid) ∧
    ((∀ q, fs.unlinkFails q = false) →
      fs.fsExists (jsResolve2 (jsResolve2 config.rootDir (getCacheRoot config))
        ("tsx".data)) = true →
      (cleanOrphanTsxFiles fs config valid).deletedTsx =
        ((fs.listTsx (jsResolve2 (jsResolve2 config.rootDir (getCacheRoot config))
            ("tsx".data))).map
          (jsResolve2 (jsResolve2 (jsResolve2 config.rootDir (getCacheRoot config))
            ("tsx".data)))).filter (fun p => ! decide (p ∈ valid))) := by
  constructor
  · intro p hp
    unfold cleanOrphanTsxFiles at hp
    by_cases he : fs.fsExists (jsResolve2 (jsResolve2 config.rootDir (getCacheRoot config))
        ("tsx".data)) = true
    · rw [if_pos he] at hp
      exact cleanOrphan_fold_valid fs config valid _ _ ⟨[], [], 0⟩ (by simp) p hp
    · rw [if_neg he] at hp
      simp at hp
  · intro hok he
    unfold cleanOrphanTsxFiles
    rw [if_pos he, cleanOrphan_fold_exact fs config valid _ hok]
    simp

/-- Configuration of the C6 counterexample (project root `/r`). -/
def c6Config : FastCheckConfig := { rootDir := "/r".data }

/-- Filesystem oracle of the C6 counterexample: everything exists, deletions
succeed, and the generated directory holds one orphan `a_b.svelte.tsx` whose
flattened name collides with the valid source `a/b.svelte`. -/
def c6FS : FS :=
  { fsExists := fun _ => true
    mtime := fun _ => 0
    contentOf := fun _ => []
    parseMapJson := fun _ => none
    parseWarningsJson := fun _ => none
    compileWarnings := fun _ => []
    transpile := fun _ => none
    listTsx := fun _ => ["a_b.svelte.tsx".data]
    unlinkFails := fun _ => false }

/-- Valid set of the C6 counterexample: the output of source `a/b.svelte`. -/
def c6Valid : List Str := [getTsxPath c6Config (jsResolve2 ("/r".data) ("a/b.svelte".data))]

/-- C6 counterexample: the orphan `a_b.svelte.tsx` is deleted together with
the sourcemap at its flattened name — which is exactly the sourcemap path of
the in-set source `a/b.svelte`.  The original claim ("never deletes a
generated file or sourcemap belonging to the current valid set") is false. -/
theorem c6_orphan_cleanup_counterexample :
    getTsxPath c6Config (jsResolve2 ("/r".data) ("a/b.svelte".data)) ∈ c6Valid ∧
    getMapPath c6Config (jsResolve2 ("/r".data) ("a/b.svelte".data)) ∈
      (cleanOrphanTsxFiles c6FS c6Config c6Valid).deletedMaps := by
  decide

theorem c6_orphan_cleanup_amended_witness :
    (cleanOrphanTsxFiles c6FS c6Config c6Valid).deletedTsx =
      ((c6FS.listTsx (jsResolve2 (jsResolve2 c6Config.rootDir (getCacheRoot c6Config))
          ("tsx".data))).map
        (jsResolve2 (jsResolve2 (jsResolve2 c6Config.rootDir (getCacheRoot c6Config))
          ("tsx".data)))).filter (fun p => ! decide (p ∈ c6Valid)) :=
  (c6_orphan_cleanup_amended c6FS c6Config c6Valid).2 (fun _ => rfl) rfl

/-- C5 (amended): an unparseable cached record never aborts the run, but the
two caches react differently.  The warnings cache treats it as a miss and
recompiles the file.  The conversion cache does not retranspile: an
up-to-date file whose stored sourcemap fails to parse keeps its skipped
classification and yields a failed conversion result (`success := false`,
empty sourcemap). -/
theorem c5_unparseable_cache_amended (fs : FS) (config : FastCheckConfig) (file : Str) :
    (fs.fsExists (getWarningsCachePath config (jsResolve2 config.rootDir file)) = true →
      fs.fsExists (jsResolve2 config.rootDir file) = true →
      fs.parseWarningsJson
        (fs.contentOf (getWarningsCachePath config (jsResolve2 config.rootDir file))) = none →
      collectWarningsForFile fs config file =
        (fs.compileWarnings (jsResolve2 config.rootDir file)).map
          (fun w => warningToDiagnostic w config.rootDir)) ∧
    (shouldSkipFile fs (jsResolve2 config.rootDir file)
        (getTsxPath config (jsResolve2 config.rootDir file))
        (getMapPath config (jsResolve2 config.rootDir file)) = true →
      fs.parseMapJson
        (fs.contentOf (getMapPath config (jsResolve2 config.rootDir file))) = none →
      convertChangedFilesModel fs config [file] =
        [⟨jsResolve2 config.rootDir file,
          getTsxPath config (jsResolve2 config.rootDir file), emptySourceMap, false, none⟩]) := by
  constructor
  · intro h1 h2 h3
    simp [collectWarningsForFile, h1, h2, h3]
  · intro hskip hparse
    have hmapExists : fs.fsExists (getMapPath config (jsResolve2 config.rootDir file)) = true := by
      simp only [shouldSkipFile, Bool.and_eq_true] at hskip
      exact hskip.1.2
    simp [convertChangedFilesModel, classifyFiles, hskip, skippedResult, loadSourcemap,
      hmapExists, hparse]

/-- Configuration of the C5 counterexample. -/
def c5Config : FastCheckConfig := { rootDir := "/r".data }

/-- Filesystem oracle of the C5 counterexample: the generated file and its
sourcemap exist and are up to date, the stored sourcemap record does not
parse, and a retranspile would have succeeded (the transpiler oracle returns
a sourcemap). -/
def c5FS : FS :=
  { fsExists := fun _ => true
    mtime := fun _ => 0
    contentOf := fun _ => []
    parseMapJson := fun _ => none
    parseWarningsJson := fun _ => none
    compileWarnings := fun _ => []
    transpile := fun _ => some emptySourceMap
    listTsx := fun _ => []
    unlinkFails := fun _ => false }

/-- C5 counterexample: for an up-to-date source whose stored sourcemap fails
to parse, the incremental conversion does not retranspile — the file is not
classified for conversion, and its result is the failed skipped record —
contradicting the claim that the conversion cache retranspiles on an
unparseable record. -/
theorem c5_unparseable_cache_counterexample :
    (classifyFiles c5FS c5Config ["a.svelte".data]).2 = [] ∧
    convertChangedFilesModel c5FS c5Config ["a.svelte".data] =
      [⟨jsResolve2 c5Config.rootDir ("a.svelte".data),
        getTsxPath c5Config (jsResolve2 c5Config.rootDir ("a.svelte".data)),
        emptySourceMap, false, none⟩] := by
  constructor
  · rfl
  · rfl

theorem c5_unparseable_cache_amended_witness :
    (collectWarningsForFile c5FS c5Config ("a.svelte".data) =
      (c5FS.compileWarnings (jsResolve2 c5Config.rootDir ("a.svelte".data))).map
        (fun w => warningToDiagnostic w c5Config.rootDir)) ∧
    (convertChangedFilesModel c5FS c5Config ["a.svelte".data] =
      [⟨jsResolve2 c5Config.rootDir ("a.svelte".data),
        getTsxPath c5Config (jsResolve2 c5Config.rootDir ("a.svelte".data)),
        emptySourceMap, false, none⟩]) :=
  ⟨(c5_unparseable_cache_amended c5FS c5Config ("a.svelte".data)).1 rfl rfl rfl,
   (c5_unparseable_cache_amended c5FS c5Config ("a.svelte".data)).2 (by decide) rfl⟩
